import Mathlib

/-!
Shallow embedding of the tiled VAE decode-and-blend engine found in
src/testt/test.py (functions blend_v, blend_h and the method
VaeDecoder.forward).  Tensors of shape (batch, channel, height, width)
are embedded as total functions from four indices to rational values;
every torch operation used by the engine (slicing, flip, replicate
padding, zero padding, masking, torch.where, arange division) acts
pointwise or by index reindexing on dimensions 2 and 3 and broadcasts
over dimensions 0 and 1, which is exactly how the embedding below
treats them.  The neural decoder self.vae_decoder is an opaque pure
function and is taken as a parameter.  Python int arithmetic is
embedded as Lean Int: for a positive modulus, Python percent equals
Int.emod and Python floor division equals Int division, both of which
agree with the Lean operators on Int used below.
-/

namespace VaeTile

/-- A 4-D tensor value plane: indices are (batch, channel, row, column).
Real tensors are finite; the embedding is total and claims only quantify
over in-range indices. -/
abbrev Tensor4 : Type := ℕ → ℕ → ℕ → ℕ → ℚ

/-! ## Configuration constants, from VaeDecoder.forward lines 43-50 -/

/-- tile_latent_size = 64 -/
def tile_latent_size : ℕ := 64

/-- vae_scale_factor = 8 -/
def vae_scale_factor : ℕ := 8

/-- tile_sample_size = tile_latent_size * vae_scale_factor -/
def tile_sample_size : ℕ := tile_latent_size * vae_scale_factor

/-- tile_overlap_factor = 0.25 -/
def tile_overlap_factor : ℚ := 1/4

/-- overlap_size = int(tile_latent_size * (1.0 - tile_overlap_factor)).
Python int() truncates toward zero; the operand is nonnegative, so
truncation coincides with the floor used here. -/
def overlap_size : ℕ := (⌊(tile_latent_size : ℚ) * (1 - tile_overlap_factor)⌋).toNat

/-- blend_extent = int(tile_sample_size * tile_overlap_factor), same
truncation remark as for overlap_size. -/
def blend_extent : ℕ := (⌊(tile_sample_size : ℚ) * tile_overlap_factor⌋).toNat

theorem tile_sample_size_eq : tile_sample_size = 512 := rfl

theorem overlap_size_eq : overlap_size = 48 := by
  have h : ⌊(tile_latent_size : ℚ) * (1 - tile_overlap_factor)⌋ = 48 := by
    rw [tile_latent_size, tile_overlap_factor]; norm_num
  rw [overlap_size, h]; rfl

theorem blend_extent_eq : blend_extent = 128 := by
  have h : ⌊(tile_sample_size : ℚ) * tile_overlap_factor⌋ = 128 := by
    rw [tile_sample_size_eq, tile_overlap_factor]; norm_num
  rw [blend_extent, h]; rfl

/-! ## Blend ramps, from VaeDecoder.forward lines 53-57.
weight_v is torch.arange(blend_extent) divided by blend_extent, viewed
with shape (1, 1, blend_extent, 1); weight_h is the same sequence with
shape (1, 1, 1, blend_extent).  Both are embedded as the sequence of
their entries. -/

/-- Entry k of the vertical blend ramp: k / blend_extent. -/
def weight_v (k : ℕ) : ℚ := (k : ℚ) / (blend_extent : ℚ)

/-- Entry k of the horizontal blend ramp: k / blend_extent. -/
def weight_h (k : ℕ) : ℚ := (k : ℚ) / (blend_extent : ℚ)

/-! ## Grid planning arithmetic, from VaeDecoder.forward lines 60-74.
All quantities are Python ints, embedded as Lean Int; the % below is
Int.emod and / is Int division, which agree with Python % and // for
the positive divisors used here. -/

/-- pad_h = (overlap_size - (latent_height - tile_latent_size) % overlap_size) % overlap_size,
as a Python int. -/
def pad_h_z (H : ℕ) : ℤ :=
  ((overlap_size : ℤ) - ((H : ℤ) - (tile_latent_size : ℤ)) % (overlap_size : ℤ)) % (overlap_size : ℤ)

/-- pad_w, same formula on the width. -/
def pad_w_z (W : ℕ) : ℤ :=
  ((overlap_size : ℤ) - ((W : ℤ) - (tile_latent_size : ℤ)) % (overlap_size : ℤ)) % (overlap_size : ℤ)

/-- The padded latent height latent_height + pad_h (pad_h_z is nonnegative,
see theorem pad_h_z_nonneg). -/
def padded_H (H : ℕ) : ℕ := H + (pad_h_z H).toNat

/-- The padded latent width latent_width + pad_w. -/
def padded_W (W : ℕ) : ℕ := W + (pad_w_z W).toNat

theorem pad_h_z_nonneg (H : ℕ) : 0 ≤ pad_h_z H := by
  rw [pad_h_z, overlap_size_eq]; omega

theorem pad_w_z_nonneg (W : ℕ) : 0 ≤ pad_w_z W := by
  rw [pad_w_z, overlap_size_eq]; omega

/-- num_h_steps = (padded_latent.shape[2] - tile_latent_size) // overlap_size + 1,
as a Python int (it is nonpositive when padded_H < tile_latent_size). -/
def num_h_steps_z (H : ℕ) : ℤ :=
  ((padded_H H : ℤ) - (tile_latent_size : ℤ)) / (overlap_size : ℤ) + 1

/-- num_w_steps, same formula on the width. -/
def num_w_steps_z (W : ℕ) : ℤ :=
  ((padded_W W : ℤ) - (tile_latent_size : ℤ)) / (overlap_size : ℤ) + 1

/-- The tile positions (i, j) visited by the two nested loops
for i in range(num_h_steps): for j in range(num_w_steps), in row-major
order.  range() of a nonpositive int is empty, hence toNat. -/
def tilePositions (H W : ℕ) : List (ℕ × ℕ) :=
  ((List.range (num_h_steps_z H).toNat).map
    (fun i => (List.range (num_w_steps_z W).toNat).map (fun j => (i, j)))).flatten

/-! ## Tensor operations used by the engine -/

/-- t[:, :, hs:, ws:]: the spatial slice of t starting at row hs, column ws.
The engine always reads such slices only within their intended extent. -/
def slice2 (t : Tensor4) (hs ws : ℕ) : Tensor4 :=
  fun n c y x => t n c (hs + y) (ws + x)

/-- F.pad(latent, (0, pad_w, 0, pad_h), mode='replicate'): pads only on the
right and bottom by repeating the last in-range row and column.  H and W are
the spatial dimensions of t; in-range positions are unchanged. -/
def replicatePad (t : Tensor4) (H W : ℕ) : Tensor4 :=
  fun n c y x => t n c (min y (H - 1)) (min x (W - 1))

/-- blend_v from test.py lines 11-21.  a_slice is flip, take blend_extent
rows, flip again: row y of a_slice is row (aH - blendExtent + y) of a, the
last blendExtent rows of a, where aH is a.shape[2].  blendExtent is
weight.shape[2] and the weight broadcasts over batch, channel and column.
The first blendExtent rows of the result hold the blended slice, the rest
keep b. -/
def blend_v (a b : Tensor4) (weight : ℕ → ℚ) (blendExtent aH : ℕ) : Tensor4 :=
  fun n c y x =>
    if y < blendExtent then
      a n c (aH - blendExtent + y) x * (1 - weight y) + b n c y x * weight y
    else b n c y x

/-- blend_h from test.py lines 23-33, the column-wise mirror of blend_v:
column x of a_slice is column (aW - blendExtent + x) of a, where aW is
a.shape[3]. -/
def blend_h (a b : Tensor4) (weight : ℕ → ℚ) (blendExtent aW : ℕ) : Tensor4 :=
  fun n c y x =>
    if x < blendExtent then
      a n c y (aW - blendExtent + x) * (1 - weight x) + b n c y x * weight x
    else b n c y x

/-! ## The canvas write, from VaeDecoder.forward lines 97-108:
F.pad of the decoded tile up to canvas size, a boolean rectangle mask,
and a full torch.where reassignment. -/

/-- The rectangle mask: torch.zeros_like(canvas, bool) with
mask[:, :, hs:hs+tile_sample_size, ws:ws+tile_sample_size] = True.
The mask is constant over batch and channel. -/
def maskRect (hs ws : ℕ) (y x : ℕ) : Bool :=
  decide (hs ≤ y ∧ y < hs + tile_sample_size ∧ ws ≤ x ∧ x < ws + tile_sample_size)

/-- F.pad(decoded_tile, (ws, right, hs, bottom)) with zero fill: inside the
tile rectangle the tile value, elsewhere zero.  The right and bottom pad
amounts only add zeros beyond the rectangle and need no explicit record. -/
def padTileToCanvas (tile : Tensor4) (hs ws : ℕ) : Tensor4 :=
  fun n c y x =>
    if hs ≤ y ∧ y < hs + tile_sample_size ∧ ws ≤ x ∧ x < ws + tile_sample_size then
      tile n c (y - hs) (x - ws)
    else 0

/-- torch.where(mask, a, b) with a spatial mask broadcast over batch and
channel. -/
def torchWhere (mask : ℕ → ℕ → Bool) (a b : Tensor4) : Tensor4 :=
  fun n c y x => if mask y x then a n c y x else b n c y x

/-- canvas = torch.where(mask, F.pad(decoded_tile, padding), canvas):
the complete write of one decoded tile into the canvas. -/
def writeTile (canvas tile : Tensor4) (hs ws : ℕ) : Tensor4 :=
  torchWhere (maskRect hs ws) (padTileToCanvas tile hs ws) canvas

/-! ## One iteration of the tiling loop and the whole forward pass -/

/-- The tile_latent slice
padded_latent[:, :, h_step:h_step+tile_latent_size, w_step:w_step+tile_latent_size]
for tile position (i, j). -/
def tileLatent (padded : Tensor4) (i j : ℕ) : Tensor4 :=
  slice2 padded (i * overlap_size) (j * overlap_size)

/-- The body of one (i, j) loop iteration after the decoder call: vertical
blend when h_step > 0, then horizontal blend when w_step > 0, then the
canvas write.  Both blends read the canvas slice at the target location of
the new tile, exactly as lines 89-95 of test.py do. -/
def tileBody (canvas : Tensor4) (i j : ℕ) (decoded : Tensor4) : Tensor4 :=
  let h_step := i * overlap_size
  let w_step := j * overlap_size
  let h_start_sample := h_step * vae_scale_factor
  let w_start_sample := w_step * vae_scale_factor
  let d1 :=
    if 0 < h_step then
      blend_v (slice2 canvas h_start_sample w_start_sample) decoded weight_v
        blend_extent tile_sample_size
    else decoded
  let d2 :=
    if 0 < w_step then
      blend_h (slice2 canvas h_start_sample w_start_sample) d1 weight_h
        blend_extent tile_sample_size
    else d1
  writeTile canvas d2 h_start_sample w_start_sample

/-- One full (i, j) loop iteration: decode the tile latent, then tileBody. -/
def tileStep (decode : Tensor4 → Tensor4) (padded : Tensor4) (canvas : Tensor4)
    (p : ℕ × ℕ) : Tensor4 :=
  tileBody canvas p.1 p.2 (decode (tileLatent padded p.1 p.2))

/-- The canvas after the whole tiling loop of VaeDecoder.forward: replicate
padding of the latent, a zero canvas, then the row-major fold over all tile
positions.  The final image is this canvas restricted to rows below
latent_height * vae_scale_factor and columns below
latent_width * vae_scale_factor (the crop of line 113). -/
def forwardCanvas (decode : Tensor4 → Tensor4) (latent : Tensor4) (H W : ℕ) : Tensor4 :=
  (tilePositions H W).foldl
    (tileStep decode (replicatePad latent H W))
    (fun _ _ _ _ => 0)

/-! ## Shape bookkeeping.  The embedding carries tensor extents separately,
the way the source reads them from tensor.shape. -/

/-- Shape of the canvas torch.zeros(latent.shape[0], 3, padded_sample_h, padded_sample_w). -/
def canvas_shape (B H W : ℕ) : ℕ × ℕ × ℕ × ℕ :=
  (B, 3, padded_H H * vae_scale_factor, padded_W W * vae_scale_factor)

/-- Shape of final_image = canvas[:, :, :original_height_out, :original_width_out].
Python slicing clamps at the buffer extent, hence the min. -/
def final_shape (B H W : ℕ) : ℕ × ℕ × ℕ × ℕ :=
  (B, 3, min (padded_H H * vae_scale_factor) (H * vae_scale_factor),
   min (padded_W W * vae_scale_factor) (W * vae_scale_factor))

/-! ## Coverage geometry -/

/-- Tile position p writes output pixel (y, x): the pixel lies in the mask
rectangle the write of tile p fills, at target offset
(p.1 * overlap_size * vae_scale_factor, p.2 * overlap_size * vae_scale_factor). -/
def tileWritesPixel (p : ℕ × ℕ) (y x : ℕ) : Prop :=
  maskRect (p.1 * overlap_size * vae_scale_factor)
    (p.2 * overlap_size * vae_scale_factor) y x = true

/-- Output pixel (y, x) is written by at least one tile of the grid planned
for a latent of spatial size (H, W). -/
def coveredPixel (H W y x : ℕ) : Prop :=
  ∃ p ∈ tilePositions H W, tileWritesPixel p y x

/-! ## The forward pass with a fallible decoder.  The call
self.vae_decoder(tile_latent) is the only fallible operation in the loop;
a raised Python exception propagates out of forward, which has no handler.
The standard embedding of such fallible code is the Except monad: the
fold short-circuits at the first error and no canvas value escapes. -/

/-- One loop iteration with a fallible decoder: the decoder error aborts the
iteration, otherwise tileBody runs as in tileStep. -/
def tileStepE {ε : Type} (decode : Tensor4 → Except ε Tensor4) (padded : Tensor4)
    (canvas : Tensor4) (p : ℕ × ℕ) : Except ε Tensor4 :=
  match decode (tileLatent padded p.1 p.2) with
  | Except.error e => Except.error e
  | Except.ok d => Except.ok (tileBody canvas p.1 p.2 d)

/-- The whole tiling loop with a fallible decoder: the monadic fold stops at
the first failing tile and surfaces its error. -/
def forwardE {ε : Type} (decode : Tensor4 → Except ε Tensor4) (latent : Tensor4)
    (H W : ℕ) : Except ε Tensor4 :=
  (tilePositions H W).foldlM
    (tileStepE decode (replicatePad latent H W))
    (fun _ _ _ _ => 0)

/-! ## Shape semantics of the canvas write, for decoded tiles of arbitrary
spatial size.  torch.where(mask, padded_tile, canvas) requires every
dimension of its arguments to be broadcast-compatible: equal, or equal
to one.  mask and canvas share the canvas shape (ph, pw spatially); the
padded tile has spatial shape
(th + hs + (ph - hs - tile_sample_size), tw + ws + (pw - ws - tile_sample_size))
by the padding amounts of lines 99-100 of test.py.  A False result means
torch.where raises a size-mismatch error and forward aborts. -/

/-- Broadcast compatibility of one dimension pair under torch semantics. -/
def dimCompat (a b : ℕ) : Bool := a == b || a == 1 || b == 1

/-- Whether the canvas write succeeds for a canvas of spatial shape (ph, pw),
a decoded tile of spatial shape (th, tw) and target offset (hs, ws). -/
def writeShapeOk (ph pw th tw hs ws : ℕ) : Bool :=
  dimCompat (th + hs + (ph - hs - tile_sample_size)) ph &&
  dimCompat (tw + ws + (pw - ws - tile_sample_size)) pw

/-! # Theorems -/

/-! ## Shared helper lemmas -/

theorem padded_W_eq_padded_H (W : ℕ) : padded_W W = padded_H W := rfl

theorem num_w_eq_num_h (W : ℕ) : num_w_steps_z W = num_h_steps_z W := rfl

/-- Step-count geometry on one axis: for H at least 17 the padded span
reaches at least one tile and the last tile ends exactly at the padded
boundary. -/
theorem hsteps_geom (H : ℕ) (h17 : 17 ≤ H) :
    1 ≤ (num_h_steps_z H).toNat ∧
    ((num_h_steps_z H).toNat - 1) * 48 + 64 = padded_H H := by
  simp only [num_h_steps_z, padded_H, pad_h_z, overlap_size_eq, tile_latent_size]
  omega

/-- Every output row of the unpadded region lies inside some planned tile
row interval [i * 384, i * 384 + 512). -/
theorem cover_axis (H y : ℕ) (h17 : 17 ≤ H) (hy : y < H * 8) :
    ∃ i, i < (num_h_steps_z H).toNat ∧ i * 48 * 8 ≤ y ∧ y < i * 48 * 8 + 512 := by
  obtain ⟨h1, h2⟩ := hsteps_geom H h17
  have hpad : H ≤ padded_H H := by simp only [padded_H]; omega
  rcases le_or_lt (y / 384) ((num_h_steps_z H).toNat - 1) with hle | hlt
  · refine ⟨y / 384, by omega, by omega, by omega⟩
  · refine ⟨(num_h_steps_z H).toNat - 1, by omega, by omega, by omega⟩

theorem mem_tilePositions {H W : ℕ} {p : ℕ × ℕ} :
    p ∈ tilePositions H W ↔
      p.1 < (num_h_steps_z H).toNat ∧ p.2 < (num_w_steps_z W).toNat := by
  obtain ⟨i, j⟩ := p
  simp [tilePositions, List.mem_flatten, List.mem_map, List.mem_range, Prod.mk.injEq]

/-- The claim of C6, first scenario and configuration constants. -/
theorem C6_config_eval :
    overlap_size = 48 ∧ blend_extent = 128 ∧
    pad_h_z 256 = 0 ∧ pad_w_z 256 = 0 ∧
    num_h_steps_z 256 = 5 ∧ num_w_steps_z 256 = 5 ∧
    (tilePositions 256 256).length = 25 ∧
    padded_H 256 * vae_scale_factor = 2048 ∧
    pad_h_z 100 = 12 ∧ pad_w_z 100 = 12 ∧
    padded_H 100 = 112 ∧
    num_h_steps_z 100 = 2 ∧ num_w_steps_z 100 = 2 ∧
    padded_H 100 * vae_scale_factor = 896 ∧
    min (padded_H 100 * vae_scale_factor) (100 * vae_scale_factor) = 800 := by
  simp only [tilePositions, num_h_steps_z, num_w_steps_z, padded_H, padded_W,
    pad_h_z, pad_w_z, overlap_size_eq, blend_extent_eq, tile_latent_size,
    vae_scale_factor]
  decide

/-- C4: for every input height H, the computed pad_h makes the stride
overlap_size evenly divide padded_H - tile_size over the integers, it is the
least nonnegative padding doing so, and (num_h_steps - 1) * overlap_size +
tile_size = padded_H with Python integer semantics for num_h_steps.  The
same formula serves the width axis (pad_w_z and num_w_steps_z are
definitionally the same function). -/
theorem C4_pad_minimal (H : ℕ) :
    (overlap_size : ℤ) ∣ ((padded_H H : ℤ) - (tile_latent_size : ℤ)) ∧
    (∀ p : ℕ, (overlap_size : ℤ) ∣ ((H : ℤ) + (p : ℤ) - (tile_latent_size : ℤ)) →
      pad_h_z H ≤ (p : ℤ)) ∧
    (num_h_steps_z H - 1) * (overlap_size : ℤ) + (tile_latent_size : ℤ) =
      (padded_H H : ℤ) := by
  refine ⟨?_, fun p hp => ?_, ?_⟩
  · simp only [padded_H, pad_h_z, overlap_size_eq, tile_latent_size] at *
    omega
  · simp only [padded_H, pad_h_z, overlap_size_eq, tile_latent_size] at *
    omega
  · simp only [num_h_steps_z, padded_H, pad_h_z, overlap_size_eq,
      tile_latent_size] at *
    omega

/-- Witness for C4 at the concrete height 100 of the spec scenario. -/
theorem C4_pad_minimal_witness :
    (overlap_size : ℤ) ∣ ((padded_H 100 : ℤ) - (tile_latent_size : ℤ)) ∧
    pad_h_z 100 ≤ (12 : ℤ) ∧
    (num_h_steps_z 100 - 1) * (overlap_size : ℤ) + (tile_latent_size : ℤ) =
      (padded_H 100 : ℤ) :=
  ⟨(C4_pad_minimal 100).1,
   (C4_pad_minimal 100).2.1 12
     (by simp only [overlap_size_eq, tile_latent_size]; decide),
   (C4_pad_minimal 100).2.2⟩

/-- C2 as stated is false: for the 1 x 1 latent grid (H = W = 1, both at
least 1) the loop plans zero tiles, so output pixel (0, 0) of the unpadded
region is written by no tile. -/
theorem C2_coverage_counterexample : ¬ coveredPixel 1 1 0 0 := by
  have hempty : tilePositions 1 1 = [] := by
    simp only [tilePositions, num_h_steps_z, num_w_steps_z, padded_H, padded_W,
      pad_h_z, pad_w_z, overlap_size_eq, tile_latent_size]
    decide
  rintro ⟨p, hp, _⟩
  rw [hempty] at hp
  exact List.not_mem_nil p hp

/-- C2, amended: under the engine configuration, for every latent grid size
(H, W) with H ≥ 17 and W ≥ 17 (equivalently, padded size at least
tile_size; for smaller inputs the loop plans zero tiles on that axis),
every output pixel of the unpadded region [0, H*8) x [0, W*8) is written
by at least one planned tile. -/
theorem C2_coverage (H W y x : ℕ) (hH : 17 ≤ H) (hW : 17 ≤ W)
    (hy : y < H * vae_scale_factor) (hx : x < W * vae_scale_factor) :
    coveredPixel H W y x := by
  obtain ⟨i, hi, hi1, hi2⟩ := cover_axis H y hH (by simpa [vae_scale_factor] using hy)
  obtain ⟨j, hj, hj1, hj2⟩ := cover_axis W x hW (by simpa [vae_scale_factor] using hx)
  refine ⟨(i, j), mem_tilePositions.mpr ⟨hi, by rwa [num_w_eq_num_h]⟩, ?_⟩
  simp only [tileWritesPixel, maskRect, overlap_size_eq, vae_scale_factor,
    tile_sample_size_eq, decide_eq_true_eq]
  omega

/-- Witness for C2 at the smallest covered grid size 17 x 17. -/
theorem C2_coverage_witness : (17 ≤ 17 ∧ 0 < 17 * vae_scale_factor) ∧ coveredPixel 17 17 0 0 :=
  ⟨⟨le_refl 17, by decide⟩,
   C2_coverage 17 17 0 0 (le_refl 17) (le_refl 17) (by decide) (by decide)⟩

/-- C10: for every batch size and latent spatial size (H, W) with H, W ≥ 1,
the pads are nonnegative, the padded sizes dominate the input sizes, the
canvas is allocated at padded resolution, and the final crop of the canvas
yields exactly the unpadded output size (B, 3, H*8, W*8); moreover in the
degenerate case where a step count is nonpositive the tiling loop runs zero
iterations and the returned buffer is the untouched zero canvas. -/
theorem C10_output_shape (B H W : ℕ) (hH : 1 ≤ H) (hW : 1 ≤ W) :
    0 ≤ pad_h_z H ∧ 0 ≤ pad_w_z W ∧
    H ≤ padded_H H ∧ W ≤ padded_W W ∧
    canvas_shape B H W =
      (B, 3, padded_H H * vae_scale_factor, padded_W W * vae_scale_factor) ∧
    final_shape B H W = (B, 3, H * vae_scale_factor, W * vae_scale_factor) ∧
    ((num_h_steps_z H ≤ 0 ∨ num_w_steps_z W ≤ 0) →
      tilePositions H W = [] ∧
      ∀ decode latent, forwardCanvas decode latent H W = fun _ _ _ _ => (0 : ℚ)) := by
  have hvh : H ≤ padded_H H := by simp only [padded_H]; omega
  have hvw : W ≤ padded_W W := by simp only [padded_W]; omega
  refine ⟨pad_h_z_nonneg H, pad_w_z_nonneg W, hvh, hvw, rfl, ?_, ?_⟩
  · simp only [final_shape, vae_scale_factor]
    have h1 : min (padded_H H * 8) (H * 8) = H * 8 := by omega
    have h2 : min (padded_W W * 8) (W * 8) = W * 8 := by omega
    rw [h1, h2]
  · intro hdeg
    have hempty : tilePositions H W = [] := by
      rcases hdeg with hd | hd
      · have : (num_h_steps_z H).toNat = 0 := by omega
        simp [tilePositions, this]
      · have : (num_w_steps_z W).toNat = 0 := by omega
        simp [tilePositions, this]
    exact ⟨hempty, fun decode latent => by rw [forwardCanvas, hempty]; rfl⟩

/-- Witness for C10 at the degenerate size 1 x 1, where the loop plans zero
tiles and the output is the cropped zero canvas. -/
theorem C10_output_shape_witness :
    (1 ≤ 1 ∧ num_h_steps_z 1 ≤ 0) ∧
    final_shape 2 1 1 = (2, 3, 1 * vae_scale_factor, 1 * vae_scale_factor) ∧
    tilePositions 1 1 = [] :=
  ⟨⟨le_refl 1,
    by simp only [num_h_steps_z, padded_H, pad_h_z, overlap_size_eq,
        tile_latent_size]; decide⟩,
   (C10_output_shape 2 1 1 (le_refl 1) (le_refl 1)).2.2.2.2.2.1,
   ((C10_output_shape 2 1 1 (le_refl 1) (le_refl 1)).2.2.2.2.2.2
     (Or.inl (by simp only [num_h_steps_z, padded_H, pad_h_z, overlap_size_eq,
        tile_latent_size]; decide))).1⟩

/-- C5: both blend ramps are length blend_extent sequences, strictly
increasing over their domain, starting at exactly 0 and ending at
1 - 1/blend_extent (approximately 1), and the vertical and horizontal
ramps are the same pure function of blend_extent. -/
theorem C5_ramp :
    weight_v 0 = 0 ∧
    (∀ j k : ℕ, j < k → k < blend_extent → weight_v j < weight_v k) ∧
    weight_v (blend_extent - 1) = 1 - 1 / (blend_extent : ℚ) ∧
    (∀ k : ℕ, weight_v k = weight_h k) := by
  refine ⟨by simp [weight_v], fun j k hjk _ => ?_, ?_, fun k => rfl⟩
  · have hpos : (0 : ℚ) < (blend_extent : ℚ) := by
      rw [blend_extent_eq]; norm_num
    simp only [weight_v]
    exact div_lt_div_of_pos_right (by exact_mod_cast hjk) hpos
  · rw [blend_extent_eq]
    norm_num [weight_v, blend_extent_eq]

/-- Witness for C5 at the first two ramp entries. -/
theorem C5_ramp_witness :
    ((0 : ℕ) < 1 ∧ 1 < blend_extent) ∧ weight_v 0 < weight_v 1 :=
  ⟨⟨Nat.zero_lt_one, by rw [blend_extent_eq]; decide⟩,
   C5_ramp.2.1 0 1 Nat.zero_lt_one (by rw [blend_extent_eq]; decide)⟩

/-- C7: the canvas write of one decoded tile (zero padding to canvas size, a
rectangle mask, and a full torch.where reassignment) leaves every canvas
position outside the tile_sample_size square at the target offset exactly
as it was. -/
theorem C7_frame (canvas tile : Tensor4) (hs ws n c y x : ℕ)
    (h : ¬ (hs ≤ y ∧ y < hs + tile_sample_size ∧ ws ≤ x ∧ x < ws + tile_sample_size)) :
    writeTile canvas tile hs ws n c y x = canvas n c y x := by
  simp [writeTile, torchWhere, maskRect, h]

/-- Witness for C7: a write at offset (0, 0) leaves the pixel at row 600,
outside the 512-row rectangle, untouched. -/
theorem C7_frame_witness :
    ¬ ((0 : ℕ) ≤ 600 ∧ 600 < 0 + tile_sample_size ∧ (0 : ℕ) ≤ 0 ∧ 0 < 0 + tile_sample_size) ∧
    writeTile (fun _ _ _ _ => 3) (fun _ _ _ _ => 9) 0 0 0 0 600 0 = 3 :=
  ⟨by decide,
   C7_frame (fun _ _ _ _ => 3) (fun _ _ _ _ => 9) 0 0 0 0 600 0 (by decide)⟩

/-- C1 is a code bug: with a two-tile vertical grid (H = 112, W = 64) and a
transform returning the constant plane 1, the first conjunct shows the
canvas left by tile (0, 0) holds 1 at output row 384, the top row of the
overlap region that tile (1, 0) shares with the tile above; the claimed
blend of that overlap content (1) with the new tile value (1) is 1 at every
ramp weight.  The second conjunct evaluates the code: the final output at
row 384 is 0, because blend_v reads the last blend_extent rows of the
canvas slice taken at the target location of tile (1, 0), i.e. canvas rows
768..895, which no tile has written, instead of the overlap content left by
the tile above. -/
theorem C1_blend_reads_wrong_rows :
    tileStep (fun _ => fun _ _ _ _ => 1) (replicatePad (fun _ _ _ _ => 0) 112 64)
      (fun _ _ _ _ => 0) (0, 0) 0 0 384 0 = 1 ∧
    forwardCanvas (fun _ => fun _ _ _ _ => 1) (fun _ _ _ _ => 0) 112 64 0 0 384 0 = 0 := by
  have hpos : tilePositions 112 64 = [(0, 0), (1, 0)] := by
    simp only [tilePositions, num_h_steps_z, num_w_steps_z, padded_H, padded_W,
      pad_h_z, pad_w_z, overlap_size_eq, tile_latent_size]
    decide
  constructor
  · simp [tileStep, tileBody, writeTile, torchWhere, maskRect, padTileToCanvas,
      blend_v, blend_h, slice2, weight_v, weight_h, blend_extent_eq,
      tile_sample_size_eq, overlap_size_eq, vae_scale_factor]
  · rw [forwardCanvas, hpos]
    simp [tileStep, tileBody, writeTile, torchWhere, maskRect, padTileToCanvas,
      blend_v, blend_h, slice2, weight_v, weight_h, blend_extent_eq,
      tile_sample_size_eq, overlap_size_eq, vae_scale_factor]

/-- C3 as stated is false: H = W = 8 satisfies H ≤ tile_size and
W ≤ tile_size, yet the planner pads by 8 (padding is applied) and plans
zero tiles, so no tile covers the input and the output is the zero canvas
rather than a decode of the input. -/
theorem C3_single_tile_counterexample :
    (8 : ℕ) ≤ tile_latent_size ∧ pad_h_z 8 = 8 ∧ num_h_steps_z 8 = 0 ∧
    tilePositions 8 8 = [] := by
  simp only [tilePositions, num_h_steps_z, num_w_steps_z, padded_H, padded_W,
    pad_h_z, pad_w_z, overlap_size_eq, tile_latent_size]
  decide

/-- C3, amended: for inputs with 17 ≤ H ≤ tile_size and 17 ≤ W ≤ tile_size
exactly one tile is decoded, no blending is exercised, and every pixel of
the cropped output equals the single unblended decode of the
replicate-padded input; the padding is zero exactly when the dimension
equals tile_size (so only for H = W = tile_size is the decoded input the
unpadded latent itself). -/
theorem C3_single_tile (decode : Tensor4 → Tensor4) (latent : Tensor4) (H W : ℕ)
    (hH1 : 17 ≤ H) (hH2 : H ≤ tile_latent_size)
    (hW1 : 17 ≤ W) (hW2 : W ≤ tile_latent_size) :
    tilePositions H W = [(0, 0)] ∧
    (pad_h_z H = 0 ↔ H = tile_latent_size) ∧
    (pad_w_z W = 0 ↔ W = tile_latent_size) ∧
    ∀ n c y x, y < H * vae_scale_factor → x < W * vae_scale_factor →
      forwardCanvas decode latent H W n c y x =
        decode (tileLatent (replicatePad latent H W) 0 0) n c y x := by
  have h1 : (num_h_steps_z H).toNat = 1 := by
    simp only [num_h_steps_z, padded_H, pad_h_z, overlap_size_eq,
      tile_latent_size] at *
    omega
  have h2 : (num_w_steps_z W).toNat = 1 := by
    simp only [num_w_steps_z, padded_W, pad_w_z, overlap_size_eq,
      tile_latent_size] at *
    omega
  have hpos : tilePositions H W = [(0, 0)] := by
    simp only [tilePositions, h1, h2]
    rfl
  refine ⟨hpos, ?_, ?_, ?_⟩
  · simp only [pad_h_z, overlap_size_eq, tile_latent_size] at *
    omega
  · simp only [pad_w_z, overlap_size_eq, tile_latent_size] at *
    omega
  · intro n c y x hy hx
    have hy' : y < 512 := by
      simp only [vae_scale_factor] at hy
      simp only [tile_latent_size] at hH2
      omega
    have hx' : x < 512 := by
      simp only [vae_scale_factor] at hx
      simp only [tile_latent_size] at hW2
      omega
    rw [forwardCanvas, hpos]
    simp only [List.foldl_cons, List.foldl_nil]
    simp [tileStep, tileBody, writeTile, torchWhere, maskRect, padTileToCanvas,
      tile_sample_size_eq, hy', hx']

/-- Witness for C3 at H = W = tile_size with the identity transform and a
constant latent. -/
theorem C3_single_tile_witness :
    ((17 : ℕ) ≤ 64 ∧ (64 : ℕ) ≤ tile_latent_size ∧ 0 < 64 * vae_scale_factor) ∧
    tilePositions 64 64 = [(0, 0)] ∧
    forwardCanvas (fun f => f) (fun _ _ _ _ => (5 : ℚ)) 64 64 0 0 0 0 =
      (fun f => f) (tileLatent (replicatePad (fun _ _ _ _ => (5 : ℚ)) 64 64) 0 0) 0 0 0 0 :=
  ⟨⟨by decide, by decide, by decide⟩,
   (C3_single_tile (fun f => f) (fun _ _ _ _ => (5 : ℚ)) 64 64
      (by decide) (by decide) (by decide) (by decide)).1,
   (C3_single_tile (fun f => f) (fun _ _ _ _ => (5 : ℚ)) 64 64
      (by decide) (by decide) (by decide) (by decide)).2.2.2 0 0 0 0
      (by decide) (by decide)⟩

theorem foldlME_error {ε : Type} (decode : Tensor4 → Except ε Tensor4)
    (padded : Tensor4) (l : List (ℕ × ℕ)) :
    ∀ canvas : Tensor4,
      (∃ p ∈ l, ∃ e : ε, decode (tileLatent padded p.1 p.2) = Except.error e) →
      ∃ e : ε, (∃ p ∈ l, decode (tileLatent padded p.1 p.2) = Except.error e) ∧
        List.foldlM (tileStepE decode padded) canvas l = Except.error e := by
  induction l with
  | nil => intro canvas h; simp at h
  | cons p t ih =>
    intro canvas h
    cases hd : decode (tileLatent padded p.1 p.2) with
    | error e =>
      refine ⟨e, ⟨p, List.mem_cons_self p t, hd⟩, ?_⟩
      simp only [List.foldlM_cons, tileStepE, hd]
      rfl
    | ok d =>
      have ht : ∃ q ∈ t, ∃ e : ε, decode (tileLatent padded q.1 q.2) = Except.error e := by
        obtain ⟨q, hq, e, he⟩ := h
        rcases List.mem_cons.mp hq with rfl | hqt
        · rw [hd] at he; exact absurd he (by simp)
        · exact ⟨q, hqt, e, he⟩
      obtain ⟨e, ⟨q, hq, he⟩, hfold⟩ := ih (tileBody canvas p.1 p.2 d) ht
      refine ⟨e, ⟨q, List.mem_cons_of_mem p hq, he⟩, ?_⟩
      simp only [List.foldlM_cons, tileStepE, hd]
      exact hfold

theorem foldlME_ok {ε : Type} (decode : Tensor4 → Except ε Tensor4)
    (padded : Tensor4) (l : List (ℕ × ℕ)) :
    ∀ canvas : Tensor4,
      (∀ p ∈ l, ∃ d, decode (tileLatent padded p.1 p.2) = Except.ok d) →
      ∃ r : Tensor4, List.foldlM (tileStepE decode padded) canvas l = Except.ok r := by
  induction l with
  | nil => intro canvas _; exact ⟨canvas, rfl⟩
  | cons p t ih =>
    intro canvas h
    obtain ⟨d, hd⟩ := h p (List.mem_cons_self p t)
    obtain ⟨r, hr⟩ := ih (tileBody canvas p.1 p.2 d)
      (fun q hq => h q (List.mem_cons_of_mem p hq))
    refine ⟨r, ?_⟩
    simp only [List.foldlM_cons, tileStepE, hd]
    exact hr

/-- C8: when the decoder fails on any planned tile, the whole forward pass
returns the error raised by a failing tile and never a canvas value (the
Except result carries no partial canvas); and the forward pass returns a
canvas value exactly when the decoder succeeds on every planned tile. -/
theorem C8_error_aborts {ε : Type} (decode : Tensor4 → Except ε Tensor4)
    (latent : Tensor4) (H W : ℕ) :
    ((∃ p ∈ tilePositions H W, ∃ e : ε,
        decode (tileLatent (replicatePad latent H W) p.1 p.2) = Except.error e) →
      ∃ e : ε,
        (∃ p ∈ tilePositions H W,
          decode (tileLatent (replicatePad latent H W) p.1 p.2) = Except.error e) ∧
        forwardE decode latent H W = Except.error e) ∧
    ((∀ p ∈ tilePositions H W, ∃ d,
        decode (tileLatent (replicatePad latent H W) p.1 p.2) = Except.ok d) →
      ∃ r : Tensor4, forwardE decode latent H W = Except.ok r) :=
  ⟨fun h => foldlME_error decode (replicatePad latent H W) (tilePositions H W) _ h,
   fun h => foldlME_ok decode (replicatePad latent H W) (tilePositions H W) _ h⟩

/-- Witness for C8: a decoder that always fails with error 3 on the
single-tile 64 x 64 grid makes the whole forward pass surface error 3. -/
theorem C8_error_aborts_witness :
    ∃ e : ℕ,
      (∃ p ∈ tilePositions 64 64,
        (fun _ => Except.error 3 : Tensor4 → Except ℕ Tensor4)
          (tileLatent (replicatePad (fun _ _ _ _ => 0) 64 64) p.1 p.2) = Except.error e) ∧
      forwardE (fun _ => Except.error 3) (fun _ _ _ _ => 0) 64 64 = Except.error e :=
  (C8_error_aborts (fun _ => Except.error 3) (fun _ _ _ _ => 0) 64 64).1
    ⟨(0, 0), by
      rw [mem_tilePositions]
      constructor <;>
        · simp only [num_h_steps_z, num_w_steps_z, padded_H, padded_W,
            pad_h_z, pad_w_z, overlap_size_eq, tile_latent_size]
          decide,
     3, rfl⟩

/-- C9 as stated is false: on a single-tile canvas (padded sample size
exactly tile_sample_size on both axes) a decoded tile of spatial size
1 x tile_sample_size, which differs from tile_sample_size on the height
axis, passes the canvas write without any error, because the padded tile
has height 1 and torch.where silently broadcasts a size-1 dimension. -/
theorem C9_shape_counterexample :
    writeShapeOk tile_sample_size tile_sample_size 1 tile_sample_size 0 0 = true ∧
    (1 : ℕ) ≠ tile_sample_size := by decide

/-- C9, amended: for a canvas write at target offset (hs, ws) inside a
canvas of padded sample shape (ph, pw), the write succeeds exactly when
each decoded-tile spatial dimension either matches tile_sample_size or the
padded tile dimension equals 1 (tile dimension = tile_sample_size + 1 - the
canvas dimension, possible only on a single-tile axis); every other
mismatched decoded tile makes torch.where raise, so the mismatch is never
tolerated by padding or truncating. -/
theorem C9_shape_mismatch (ph pw th tw hs ws : ℕ)
    (hh : hs + tile_sample_size ≤ ph) (hw : ws + tile_sample_size ≤ pw) :
    writeShapeOk ph pw th tw hs ws = true ↔
      ((th = tile_sample_size ∨ th + ph = tile_sample_size + 1) ∧
       (tw = tile_sample_size ∨ tw + pw = tile_sample_size + 1)) := by
  simp only [writeShapeOk, dimCompat, tile_sample_size_eq, Bool.and_eq_true,
    Bool.or_eq_true, beq_iff_eq] at *
  omega

/-- Witness for C9: a tile of height 500 on a 1024-row canvas fails the
write shape check. -/
theorem C9_shape_mismatch_witness :
    ((0 : ℕ) + tile_sample_size ≤ 1024 ∧ (500 : ℕ) ≠ tile_sample_size) ∧
    ¬ writeShapeOk 1024 1024 500 512 0 0 = true :=
  ⟨⟨by decide, by decide⟩,
   fun h => by
    have := (C9_shape_mismatch 1024 1024 500 512 0 0 (by decide) (by decide)).mp h
    revert this
    decide⟩

end VaeTile

